import Mathlib

/-!
Verification of the media-soup signaling backend (room registry, socket
handlers, REST room endpoints).

The repository carries two revisions of the socket handler module; this
development embeds the current, reconnection-aware revision of the handlers
(the one with the duplicate-join scan, replace-on-republish produce and the
retain-empty-room disconnect policy, found alongside `transport.ts`), together
with the REST endpoints of `server.ts`.

Modelling conventions:
- A JavaScript `Map` becomes an association list (`JsMap`) with JS `Map`
  semantics: insertion order is preserved, `set` updates in place, keys are
  unique in any map actually built by the code (`NodupKeys`).
- `Date` values become `Nat` timestamps (a JS `Date` object is always truthy,
  so `existingParticipant?.joinedAt || new Date()` inherits unconditionally
  whenever an existing participant was found).
- Engine-generated identifiers (uuids, mediasoup producer/consumer ids) are
  passed in as explicit `fresh…` arguments.
- `x || dflt` on JS strings is `jsOrStr` (empty string is falsy).
- `close()` on a handle that stays in a map sets its `closed` flag; handles
  that are removed are recorded in a `closedIds` trace instead.
-/

namespace MediaSoup

/-- Association list standing in for a JavaScript `Map`. -/
abbrev JsMap (α : Type) := List (String × α)

/-- `Map.get(k)`: first (and, for maps built by the code, only) binding of `k`. -/
def jsGet {α : Type} (m : JsMap α) (k : String) : Option α :=
  match m with
  | [] => none
  | (k', v) :: rest => if k' = k then some v else jsGet rest k

/-- `Map.set(k, v)`: update in place when the key exists, append otherwise. -/
def jsSet {α : Type} (m : JsMap α) (k : String) (v : α) : JsMap α :=
  match m with
  | [] => [(k, v)]
  | (k', v') :: rest => if k' = k then (k, v) :: rest else (k', v') :: jsSet rest k v

/-- `Map.delete(k)`: remove the binding of `k` (the first one, which is the
only one for maps with unique keys). -/
def jsDelete {α : Type} (m : JsMap α) (k : String) : JsMap α :=
  match m with
  | [] => []
  | (k', v') :: rest => if k' = k then rest else (k', v') :: jsDelete rest k

/-- Keys of a map are pairwise distinct (true of every real JS `Map`). -/
def NodupKeys {α : Type} (m : JsMap α) : Prop := (m.map Prod.fst).Nodup

instance {α : Type} (m : JsMap α) : Decidable (NodupKeys m) :=
  inferInstanceAs (Decidable (m.map Prod.fst).Nodup)

instance {ε α : Type} [DecidableEq ε] [DecidableEq α] :
    DecidableEq (Except ε α) := fun x y =>
  match x, y with
  | .ok a, .ok b =>
    if h : a = b then isTrue (by rw [h])
    else isFalse (fun hc => h (Except.ok.inj hc))
  | .error a, .error b =>
    if h : a = b then isTrue (by rw [h])
    else isFalse (fun hc => h (Except.error.inj hc))
  | .ok _, .error _ => isFalse (fun hc => Except.noConfusion hc)
  | .error _, .ok _ => isFalse (fun hc => Except.noConfusion hc)

/-- JS `s || dflt` for an optional string field: `undefined` and `""` are falsy. -/
def jsOrStr (o : Option String) (dflt : String) : String :=
  match o with
  | some s => if s = "" then dflt else s
  | none => dflt

/-- JS truthiness of an optional string (for `if (!roomId || !userId)`). -/
def jsTruthy (o : Option String) : Bool :=
  match o with
  | some s => !(s == "")
  | none => false

/-- JS `key.startsWith(pre)`. -/
def jsStartsWith (s pre : String) : Bool :=
  pre.data.isPrefixOf s.data

/-- JS `key.split("-")[0]`: the part of the key before the first dash. -/
def keySocketOf (k : String) : String :=
  ⟨k.data.takeWhile (fun c => c != '-')⟩

/-! ## Data model (`types.ts`) -/

/-- `audio` / `video` media kind. -/
inductive MediaKind : Type
  | audio : MediaKind
  | video : MediaKind
deriving DecidableEq, Repr

/-- The string used for the kind inside composite producer keys. -/
def MediaKind.toKey : MediaKind → String
  | .audio => "audio"
  | .video => "video"

/-- One entry of `room.participants`. -/
structure Participant where
  socketId : String
  userId : String
  name : String
  joinedAt : Nat
  isHost : Bool
deriving DecidableEq, Repr

/-- A mediasoup producer handle as the registry sees it. -/
structure Producer where
  id : String
  kind : MediaKind
  closed : Bool
deriving DecidableEq, Repr

/-- A mediasoup consumer handle as the registry sees it. -/
structure Consumer where
  id : String
  producerId : String
  kind : MediaKind
  rtpParameters : String
  paused : Bool
  closed : Bool
deriving DecidableEq, Repr

/-- A WebRTC transport handle as the registry sees it. -/
structure Transport where
  id : String
  closed : Bool
deriving DecidableEq, Repr

/-- One chat message of `room.messages`. -/
structure Message where
  id : String
  userId : String
  userName : String
  message : String
  timestamp : Nat
deriving DecidableEq, Repr

/-- The `Room` interface of `types.ts`. -/
structure Room where
  id : String
  hostUserId : String
  createdBy : String
  participants : JsMap Participant
  producers : JsMap Producer
  consumers : JsMap Consumer
  producerTransports : JsMap Transport
  consumerTransports : JsMap Transport
  messages : List Message
  createdAt : Nat
deriving DecidableEq, Repr

/-! ## Signaling payloads -/

/-- Entry of the `existingProducers` list returned by `joinRoom`. -/
structure ProducerInfo where
  producerId : String
  socketId : String
  userId : Option String
  kind : MediaKind
deriving DecidableEq, Repr

/-- The `peer-joined` broadcast payload. -/
structure PeerJoinedEvt where
  socketId : String
  userId : String
  userName : String
  isHost : Bool
  isReconnection : Bool
deriving DecidableEq, Repr

/-- The `joinRoom` success callback payload. -/
structure JoinResponse where
  roomId : String
  userId : String
  isHost : Bool
  participants : List Participant
  existingProducers : List ProducerInfo
  messages : List Message
deriving DecidableEq, Repr

/-- Everything a successful `joinRoom` hands back: callback + broadcast. -/
structure JoinOk where
  resp : JoinResponse
  evt : PeerJoinedEvt
deriving DecidableEq, Repr

/-! ## joinRoom (socket handler) -/

/-- The `existingProducers` list built by the join handler: for each entry of
the producers map, split its key at the first dash to recover the owning
socket id, look that socket up in the (post-join) participants map, and keep
the producer only when the owner is a current participant whose `userId`
differs from the joining client's. -/
def existingProducersOf (prods : JsMap Producer) (parts : JsMap Participant)
    (finalUserId : String) : List ProducerInfo :=
  (prods.filter (fun e =>
    match jsGet parts (keySocketOf e.1) with
    | some p => decide (p.userId ≠ finalUserId)
    | none => false)).map (fun e =>
    { producerId := e.2.id,
      socketId := keySocketOf e.1,
      userId := (jsGet parts (keySocketOf e.1)).map Participant.userId,
      kind := e.2.kind })

/-- Success path of the `joinRoom` handler, acting on the (found) room.

Mirrors the handler body: resolve `finalUserId`/`finalUserName`; scan
`participants` for the first entry with the same `userId` and delete it
(reconnection case); compute
`isHost = existingParticipant?.isHost || room.participants.size === 0`
(the size is taken after the stale entry was deleted); insert the new
participant under the new socket id with
`joinedAt = existingParticipant?.joinedAt || new Date()`; build
`existingProducers` from the producers map, keeping only entries whose key
prefix (before the first dash) resolves to a participant with a different
`userId`; return the callback payload (participants snapshot, last 50
messages) and the `peer-joined` broadcast. -/
def joinRoomOk (room : Room) (socketId freshId : String) (now : Nat)
    (roomId : String) (userName userId : Option String) : Room × JoinOk :=
  let finalUserId := jsOrStr userId freshId
  let finalUserName := jsOrStr userName "Anonymous"
  let existing := room.participants.find? (fun e => decide (e.2.userId = finalUserId))
  let parts0 :=
    match existing with
    | some (oldSid, _) => jsDelete room.participants oldSid
    | none => room.participants
  let isHost :=
    (match existing with
     | some (_, p) => p.isHost
     | none => false) || parts0.isEmpty
  let joinedAt :=
    match existing with
    | some (_, p) => p.joinedAt
    | none => now
  let newParticipant : Participant :=
    { socketId := socketId, userId := finalUserId, name := finalUserName,
      joinedAt := joinedAt, isHost := isHost }
  let parts1 := jsSet parts0 socketId newParticipant
  let existingProducers := existingProducersOf room.producers parts1 finalUserId
  let evt : PeerJoinedEvt :=
    { socketId := socketId, userId := finalUserId, userName := finalUserName,
      isHost := isHost, isReconnection := existing.isSome }
  let resp : JoinResponse :=
    { roomId := roomId, userId := finalUserId, isHost := isHost,
      participants := parts1.map Prod.snd,
      existingProducers := existingProducers,
      messages := room.messages.drop (room.messages.length - 50) }
  ({ room with participants := parts1 }, { resp := resp, evt := evt })

/-- The `joinRoom` handler over the room registry: `Room not found` when the
room id is unknown, otherwise the success path above. -/
def joinRoom (rooms : JsMap Room) (socketId freshId : String) (now : Nat)
    (roomId : String) (userName userId : Option String) :
    JsMap Room × Except String JoinOk :=
  match jsGet rooms roomId with
  | none => (rooms, .error "Room not found")
  | some room =>
    let out := joinRoomOk room socketId freshId now roomId userName userId
    (jsSet rooms roomId out.1, .ok out.2)

/-- The host-determination expression of the handler, as a standalone
function of the pre-join participants map:
`existingParticipant?.isHost || room.participants.size === 0`, where the
size is measured after the stale same-`userId` entry was deleted. -/
def hostDetermination (parts : JsMap Participant) (finalUserId : String) : Bool :=
  match parts.find? (fun e => decide (e.2.userId = finalUserId)) with
  | some (oldSid, p) => p.isHost || (jsDelete parts oldSid).isEmpty
  | none => parts.isEmpty

/-! ## produce (socket handler) -/

/-- The `newProducer` broadcast payload. -/
structure NewProducerEvt where
  producerId : String
  socketId : String
  userId : String
  kind : MediaKind
deriving DecidableEq, Repr

/-- Result of a successful `produce`: the callback id and the broadcast. -/
structure ProduceOk where
  id : String
  evt : NewProducerEvt
deriving DecidableEq, Repr

/-- The `produce` handler (for a session already in the room).

Mirrors the handler body: require the session's producer transport; close
and delete any existing producer stored under the composite key
`socketId + "-" + kind` (replace-on-republish); create the new producer on
the transport and store it under the same key; broadcast `newProducer`.
The middle component of the result lists the ids of producers closed by the
call. -/
def produce (room : Room) (socketId userId : String) (kind : MediaKind)
    (freshProducerId : String) :
    Room × List String × Except String ProduceOk :=
  match jsGet room.producerTransports socketId with
  | none => (room, [], .error "Producer transport not found")
  | some _ =>
    let existingProducerKey := socketId ++ "-" ++ kind.toKey
    let step :=
      match jsGet room.producers existingProducerKey with
      | some p => (jsDelete room.producers existingProducerKey, [p.id])
      | none => (room.producers, [])
    let newProducer : Producer := { id := freshProducerId, kind := kind, closed := false }
    let evt : NewProducerEvt :=
      { producerId := freshProducerId, socketId := socketId, userId := userId, kind := kind }
    ({ room with producers := jsSet step.1 existingProducerKey newProducer },
     step.2, .ok { id := freshProducerId, evt := evt })

/-! ## consume / resumeConsumer (socket handlers) -/

/-- The `consume` success callback payload. -/
structure ConsumeOk where
  id : String
  producerId : String
  kind : MediaKind
  rtpParameters : String
deriving DecidableEq, Repr

/-- `transport.consume({producerId, rtpCapabilities, paused})` on the media
engine side: the returned consumer starts in exactly the requested paused
state (mediasoup honours the `paused` option). -/
def transportConsume (freshId producerId : String) (kind : MediaKind)
    (rtpParameters : String) (paused : Bool) : Consumer :=
  { id := freshId, producerId := producerId, kind := kind,
    rtpParameters := rtpParameters, paused := paused, closed := false }

/-- The `consume` handler (for a session already in the room).

Mirrors the handler body: first the `router.canConsume` compatibility check
(error, nothing stored, room untouched); then the session's consumer
transport is required; on success the consumer is created with
`paused: true`, stored under `socketId + "-" + producerId`, and the
callback payload is returned. `canConsume` is the router's compatibility
predicate; `freshConsumerId`, `engineKind` and `engineRtpParameters` are
the engine-chosen fields of the new consumer. -/
def consume (canConsume : String → String → Bool) (room : Room)
    (socketId producerId rtpCapabilities : String)
    (freshConsumerId : String) (engineKind : MediaKind)
    (engineRtpParameters : String) :
    Room × Except String ConsumeOk :=
  if !canConsume producerId rtpCapabilities then
    (room, .error "Cannot consume this producer")
  else
    match jsGet room.consumerTransports socketId with
    | none => (room, .error "Consumer transport not found")
    | some _ =>
      let consumer := transportConsume freshConsumerId producerId engineKind
        engineRtpParameters true
      let consumerKey := socketId ++ "-" ++ producerId
      ({ room with consumers := jsSet room.consumers consumerKey consumer },
       .ok { id := consumer.id, producerId := producerId,
             kind := consumer.kind, rtpParameters := consumer.rtpParameters })

/-- The `resumeConsumer` handler: find the consumer with the given id among
the room's consumers and resume it (clear its paused flag in place). -/
def resumeConsumer (room : Room) (consumerId : String) :
    Room × Except String Unit :=
  match room.consumers.find? (fun e => decide (e.2.id = consumerId)) with
  | none => (room, .error "Consumer not found")
  | some (key, c) =>
    ({ room with consumers := jsSet room.consumers key { c with paused := false } },
     .ok ())

/-! ## disconnect (socket handler) -/

/-- The `producerClosed` broadcast payload. -/
structure ProducerClosedEvt where
  producerId : String
  socketId : String
  userId : String
deriving DecidableEq, Repr

/-- The `peerLeft` broadcast payload. -/
structure PeerLeftEvt where
  socketId : String
  userId : String
  userName : Option String
deriving DecidableEq, Repr

/-- Observable effects of the disconnect handler: the `producerClosed`
broadcasts, the `peerLeft` broadcast, and the ids of all handles that were
closed. -/
structure DisconnectEffects where
  producerClosed : List ProducerClosedEvt
  peerLeft : Option PeerLeftEvt
  closedIds : List String
deriving DecidableEq, Repr

/-- `close()` every handle still contained in the room, in place (the
empty-room tail of the disconnect handler). -/
def closeRemaining (room : Room) : Room :=
  { room with
    producerTransports :=
      room.producerTransports.map (fun e => (e.1, { e.2 with closed := true })),
    consumerTransports :=
      room.consumerTransports.map (fun e => (e.1, { e.2 with closed := true })),
    producers :=
      room.producers.map (fun e => (e.1, { e.2 with closed := true })),
    consumers :=
      room.consumers.map (fun e => (e.1, { e.2 with closed := true })) }

/-- Ids of every handle still contained in the room. -/
def remainingIds (room : Room) : List String :=
  room.producerTransports.map (fun e => e.2.id)
    ++ room.consumerTransports.map (fun e => e.2.id)
    ++ room.producers.map (fun e => e.2.id)
    ++ room.consumers.map (fun e => e.2.id)

/-- The per-session part of the disconnect cleanup on the room state:
delete the participant entry; close-and-delete the session's producer and
consumer transports (when present); close-and-delete every producer and
consumer whose key starts with the socket id. -/
def sessionCleanupRoom (room : Room) (socketId : String) : Room :=
  { room with
    participants := jsDelete room.participants socketId,
    producerTransports :=
      match jsGet room.producerTransports socketId with
      | some _ => jsDelete room.producerTransports socketId
      | none => room.producerTransports,
    consumerTransports :=
      match jsGet room.consumerTransports socketId with
      | some _ => jsDelete room.consumerTransports socketId
      | none => room.consumerTransports,
    producers := room.producers.filter (fun e => !jsStartsWith e.1 socketId),
    consumers := room.consumers.filter (fun e => !jsStartsWith e.1 socketId) }

/-- Ids of the handles the per-session cleanup closes: the session's
transports (when present) and every producer/consumer whose key starts with
the socket id. -/
def sessionClosedIds (room : Room) (socketId : String) : List String :=
  (match jsGet room.producerTransports socketId with
    | some t => [t.id]
    | none => []) ++
  (match jsGet room.consumerTransports socketId with
    | some t => [t.id]
    | none => []) ++
  (room.producers.filter (fun e => jsStartsWith e.1 socketId)).map
    (fun e => e.2.id) ++
  (room.consumers.filter (fun e => jsStartsWith e.1 socketId)).map
    (fun e => e.2.id)

/-- The broadcasts of the per-session disconnect cleanup: one
`producerClosed` per producer of the session, one `peerLeft`. -/
def sessionEffects (room : Room) (socketId userId : String) :
    DisconnectEffects :=
  { producerClosed :=
      (room.producers.filter (fun e => jsStartsWith e.1 socketId)).map
        (fun e =>
          { producerId := e.2.id, socketId := socketId,
            userId := userId }),
    peerLeft := some
      { socketId := socketId, userId := userId,
        userName := (jsGet room.participants socketId).map Participant.name },
    closedIds := sessionClosedIds room socketId }

/-- The disconnect cleanup for a session (`socketId`, logical `userId`)
inside its current room.

Mirrors the handler body: look up the participant (for the `peerLeft`
name); close and delete the session's producer and consumer transports, if
any; close and delete every producer whose key starts with the socket id,
broadcasting `producerClosed` for each; close and delete every consumer
whose key starts with the socket id; delete the participant entry;
broadcast `peerLeft`; and, when the room became empty, close every
remaining transport/producer/consumer in place — the room itself is NOT
deleted from the registry (the `rooms.delete` line is commented out). -/
def disconnectRoom (room : Room) (socketId userId : String) :
    Room × DisconnectEffects :=
  let room1 := sessionCleanupRoom room socketId
  let eff := sessionEffects room socketId userId
  if room1.participants.isEmpty then
    -- empty room: close all remaining resources in place, keep the room
    (closeRemaining room1,
     { eff with closedIds := eff.closedIds ++ remainingIds room1 })
  else
    (room1, eff)

/-- The disconnect handler over the registry: a session that never joined a
room (`currentRoom === null`, modelled as an unknown room id) does nothing;
otherwise the room-level cleanup runs on the session's current room. -/
def disconnectRooms (rooms : JsMap Room) (roomId socketId userId : String) :
    JsMap Room × DisconnectEffects :=
  match jsGet rooms roomId with
  | none => (rooms, { producerClosed := [], peerLeft := none, closedIds := [] })
  | some room =>
    let out := disconnectRoom room socketId userId
    (jsSet rooms roomId out.1, out.2)

/-! ## DELETE /api/rooms/:roomId (server.ts) -/

/-- An HTTP response: status code, `success` flag, `message`. -/
structure ApiResponse where
  status : Nat
  success : Bool
  message : String
deriving DecidableEq, Repr

/-- Observable effects of the delete endpoint: ids of closed handles and
the room ids that received the `roomDeleted` broadcast. -/
structure DeleteEffects where
  closedIds : List String
  roomDeleted : List String
deriving DecidableEq, Repr

/-- The `DELETE /api/rooms/:roomId` endpoint with body `{userId}`.

Mirrors `server.ts`: 400 when `roomId` or `userId` is falsy; 404 when the
room is unknown; 403 when the requester is not `room.hostUserId`; otherwise
close every producer transport, consumer transport, producer and consumer
of the room, broadcast `roomDeleted` to the room, remove it from the
registry and answer success. -/
def deleteRoomApi (rooms : JsMap Room) (roomId userId : Option String) :
    JsMap Room × ApiResponse × DeleteEffects :=
  if !(jsTruthy roomId && jsTruthy userId) then
    (rooms, { status := 400, success := false,
              message := "Room ID and User ID are required" },
     { closedIds := [], roomDeleted := [] })
  else
    let rid := jsOrStr roomId ""
    let uid := jsOrStr userId ""
    match jsGet rooms rid with
    | none =>
      (rooms, { status := 404, success := false, message := "Room not found" },
       { closedIds := [], roomDeleted := [] })
    | some room =>
      if room.hostUserId ≠ uid then
        (rooms, { status := 403, success := false,
                  message := "Only the host can delete the room" },
         { closedIds := [], roomDeleted := [] })
      else
        let closed := room.producerTransports.map (fun e => e.2.id)
          ++ room.consumerTransports.map (fun e => e.2.id)
          ++ room.producers.map (fun e => e.2.id)
          ++ room.consumers.map (fun e => e.2.id)
        (jsDelete rooms rid,
         { status := 200, success := true, message := "Room deleted successfully" },
         { closedIds := closed, roomDeleted := [rid] })

/-! ## Basic lemmas about the JS map model -/

/-- All entries kept by `entriesWithKey m k` carry key `k`. -/
def entriesWithKey {α : Type} (m : JsMap α) (k : String) : JsMap α :=
  m.filter (fun e => decide (e.1 = k))

theorem jsGet_set_self {α : Type} (m : JsMap α) (k : String) (v : α) :
    jsGet (jsSet m k v) k = some v := by
  induction m with
  | nil => simp [jsSet, jsGet]
  | cons e rest ih =>
    obtain ⟨k', v'⟩ := e
    by_cases h : k' = k
    · simp [jsSet, h, jsGet]
    · simp [jsSet, h, jsGet, ih]

theorem jsGet_set_ne {α : Type} (m : JsMap α) {k k' : String} (v : α)
    (h : k' ≠ k) : jsGet (jsSet m k v) k' = jsGet m k' := by
  have hk : k ≠ k' := fun hh => h hh.symm
  induction m with
  | nil => simp [jsSet, jsGet, if_neg hk]
  | cons e rest ih =>
    obtain ⟨k₀, v₀⟩ := e
    by_cases h₀ : k₀ = k
    · subst h₀
      simp [jsSet, jsGet, if_neg hk]
    · simp only [jsSet, if_neg h₀, jsGet]
      by_cases h₁ : k₀ = k'
      · simp [h₁]
      · simp [h₁, ih]

theorem jsGet_delete_ne {α : Type} (m : JsMap α) {k k' : String}
    (h : k' ≠ k) : jsGet (jsDelete m k) k' = jsGet m k' := by
  have hk : k ≠ k' := fun hh => h hh.symm
  induction m with
  | nil => simp [jsDelete]
  | cons e rest ih =>
    obtain ⟨k₀, v₀⟩ := e
    by_cases h₀ : k₀ = k
    · subst h₀
      simp [jsDelete, jsGet, if_neg hk]
    · simp only [jsDelete, if_neg h₀, jsGet]
      by_cases h₁ : k₀ = k'
      · simp [h₁]
      · simp [h₁, ih]

theorem jsGet_eq_none_of_forall {α : Type} (m : JsMap α) (k : String)
    (h : ∀ e ∈ m, e.1 ≠ k) : jsGet m k = none := by
  induction m with
  | nil => rfl
  | cons e rest ih =>
    obtain ⟨k₀, v₀⟩ := e
    have hk₀ : k₀ ≠ k := h (k₀, v₀) (List.mem_cons_self _ _)
    simp only [jsGet, if_neg hk₀]
    exact ih (fun e he => h e (List.mem_cons_of_mem _ he))

theorem jsGet_delete_self {α : Type} (m : JsMap α) (k : String)
    (h : NodupKeys m) : jsGet (jsDelete m k) k = none := by
  induction m with
  | nil => rfl
  | cons e rest ih =>
    obtain ⟨k₀, v₀⟩ := e
    simp only [NodupKeys, List.map_cons, List.nodup_cons] at h
    by_cases h₀ : k₀ = k
    · subst h₀
      simp only [jsDelete, if_pos rfl]
      refine jsGet_eq_none_of_forall rest k₀ (fun e he hk => ?_)
      exact h.1 (hk ▸ List.mem_map_of_mem Prod.fst he)
    · simp only [jsDelete, if_neg h₀, jsGet, if_neg h₀]
      exact ih h.2

theorem mem_keys_jsSet {α : Type} (m : JsMap α) (k : String) (v : α)
    (a : String) :
    a ∈ (jsSet m k v).map Prod.fst ↔ a = k ∨ a ∈ m.map Prod.fst := by
  induction m with
  | nil => simp [jsSet]
  | cons e rest ih =>
    obtain ⟨k₀, v₀⟩ := e
    by_cases h₀ : k₀ = k
    · subst h₀
      simp only [jsSet, if_pos rfl, List.map_cons, List.mem_cons]
      simp
    · simp only [jsSet, if_neg h₀, List.map_cons, List.mem_cons, ih]
      tauto

theorem mem_keys_jsDelete {α : Type} (m : JsMap α) (k : String)
    (a : String) (h : a ∈ (jsDelete m k).map Prod.fst) :
    a ∈ m.map Prod.fst := by
  induction m with
  | nil => simp [jsDelete] at h
  | cons e rest ih =>
    obtain ⟨k₀, v₀⟩ := e
    by_cases h₀ : k₀ = k
    · subst h₀
      simp only [jsDelete, if_pos rfl] at h
      exact List.mem_cons_of_mem _ h
    · simp only [jsDelete, if_neg h₀, List.map_cons, List.mem_cons] at h ⊢
      tauto

theorem nodupKeys_jsSet {α : Type} (m : JsMap α) (k : String) (v : α)
    (h : NodupKeys m) : NodupKeys (jsSet m k v) := by
  induction m with
  | nil => simp [jsSet, NodupKeys]
  | cons e rest ih =>
    obtain ⟨k₀, v₀⟩ := e
    simp only [NodupKeys, List.map_cons, List.nodup_cons] at h
    by_cases h₀ : k₀ = k
    · subst h₀
      simpa [jsSet, NodupKeys] using h
    · have := ih h.2
      simp only [jsSet, if_neg h₀, NodupKeys, List.map_cons, List.nodup_cons]
      refine ⟨fun hmem => ?_, this⟩
      rcases (mem_keys_jsSet rest k v k₀).mp hmem with h1 | h1
      · exact h₀ h1
      · exact h.1 h1

theorem nodupKeys_jsDelete {α : Type} (m : JsMap α) (k : String)
    (h : NodupKeys m) : NodupKeys (jsDelete m k) := by
  induction m with
  | nil => simpa [jsDelete] using h
  | cons e rest ih =>
    obtain ⟨k₀, v₀⟩ := e
    simp only [NodupKeys, List.map_cons, List.nodup_cons] at h
    by_cases h₀ : k₀ = k
    · subst h₀
      simpa [jsDelete, NodupKeys] using h.2
    · simp only [jsDelete, if_neg h₀, NodupKeys, List.map_cons, List.nodup_cons]
      exact ⟨fun hmem => h.1 (mem_keys_jsDelete rest k k₀ hmem), ih h.2⟩

theorem jsGet_mapValues {α β : Type} (m : JsMap α) (g : α → β) (k : String) :
    jsGet (m.map (fun e => (e.1, g e.2))) k = (jsGet m k).map g := by
  induction m with
  | nil => rfl
  | cons e rest ih =>
    obtain ⟨k₀, v₀⟩ := e
    by_cases h₀ : k₀ = k
    · simp [jsGet, h₀]
    · simp [jsGet, h₀, ih]

theorem jsGet_map_pair {α β : Type} (m : JsMap α) (f : String × α → β)
    (k : String) :
    jsGet (m.map (fun e => (e.1, f e))) k
      = (jsGet m k).map (fun v => f (k, v)) := by
  induction m with
  | nil => rfl
  | cons e rest ih =>
    obtain ⟨k₀, v₀⟩ := e
    by_cases h₀ : k₀ = k
    · subst h₀
      simp [jsGet]
    · simp [jsGet, h₀, ih]

theorem jsGet_filter_eq_none {α : Type} (m : JsMap α)
    (p : String × α → Bool) (k : String) (h : ∀ v, p (k, v) = false) :
    jsGet (m.filter p) k = none := by
  induction m with
  | nil => rfl
  | cons e rest ih =>
    obtain ⟨k₀, v₀⟩ := e
    by_cases hp : p (k₀, v₀) = true
    · have hk₀ : k₀ ≠ k := by
        intro hk
        subst hk
        simp [h v₀] at hp
      simp [List.filter_cons, hp, jsGet, if_neg hk₀, ih]
    · have hp' : p (k₀, v₀) = false := by simpa using hp
      simp [List.filter_cons, hp', ih]

theorem entriesWithKey_jsSet_self {α : Type} (m : JsMap α) (k : String)
    (v : α) (h : NodupKeys m) : entriesWithKey (jsSet m k v) k = [(k, v)] := by
  induction m with
  | nil => simp [jsSet, entriesWithKey]
  | cons e rest ih =>
    obtain ⟨k₀, v₀⟩ := e
    simp only [NodupKeys, List.map_cons, List.nodup_cons] at h
    by_cases h₀ : k₀ = k
    · subst h₀
      have hrest : rest.filter (fun e => decide (e.1 = k₀)) = [] := by
        refine List.filter_eq_nil_iff.mpr (fun e he => ?_)
        simp only [decide_eq_true_eq]
        intro hk
        exact h.1 (hk ▸ List.mem_map_of_mem Prod.fst he)
      simp [jsSet, entriesWithKey, List.filter_cons, hrest]
    · have hd : (decide (k₀ = k)) = false := by simpa using h₀
      simp only [jsSet, if_neg h₀, entriesWithKey, List.filter_cons, hd]
      simpa [entriesWithKey] using ih h.2

theorem countP_jsSet_of_zero {α : Type} (m : JsMap α)
    (p : String × α → Bool) (k : String) (v : α) (h : m.countP p = 0) :
    (jsSet m k v).countP p = if p (k, v) then 1 else 0 := by
  induction m with
  | nil => simp [jsSet, List.countP_cons]
  | cons e rest ih =>
    obtain ⟨k₀, v₀⟩ := e
    simp only [List.countP_cons] at h
    have hrest : rest.countP p = 0 := by omega
    have hhead : (if p (k₀, v₀) then 1 else 0) = 0 := by omega
    by_cases h₀ : k₀ = k
    · subst h₀
      simp [jsSet, List.countP_cons, hrest]
    · simp [jsSet, if_neg h₀, List.countP_cons, ih hrest, hhead]

theorem countP_jsDelete_found {α : Type} (m : JsMap α)
    (p : String × α → Bool) (k : String) (v : α) (hnd : NodupKeys m)
    (hmem : (k, v) ∈ m) (hp : p (k, v) = true) (hle : m.countP p ≤ 1) :
    (jsDelete m k).countP p = 0 := by
  induction m with
  | nil => simp at hmem
  | cons e rest ih =>
    obtain ⟨k₀, v₀⟩ := e
    simp only [NodupKeys, List.map_cons, List.nodup_cons] at hnd
    by_cases h₀ : k₀ = k
    · have hdel : jsDelete ((k₀, v₀) :: rest) k = rest := by
        simp [jsDelete, h₀]
      rw [hdel]
      rcases List.mem_cons.mp hmem with h1 | h1
      · have hhd : p (k₀, v₀) = true := by
          rw [← h1]
          exact hp
        rw [List.countP_cons_of_pos _ _ hhd] at hle
        omega
      · refine absurd ?_ hnd.1
        rw [h₀]
        exact List.mem_map_of_mem Prod.fst h1
    · have hdel : jsDelete ((k₀, v₀) :: rest) k = (k₀, v₀) :: jsDelete rest k := by
        simp [jsDelete, h₀]
      rw [hdel]
      have hmem' : (k, v) ∈ rest := by
        rcases List.mem_cons.mp hmem with h1 | h1
        · exact absurd (congrArg Prod.fst h1).symm h₀
        · exact h1
      have hpos : 0 < rest.countP p :=
        List.countP_pos_iff.mpr ⟨(k, v), hmem', hp⟩
      have hhead : p (k₀, v₀) = false := by
        rcases Bool.eq_false_or_eq_true (p (k₀, v₀)) with hc | hc
        · rw [List.countP_cons_of_pos _ _ hc] at hle
          exfalso
          omega
        · exact hc
      rw [List.countP_cons_of_neg _ _ (by simp [hhead])] at hle
      have h0 := ih hnd.2 hmem' hle
      rw [List.countP_cons_of_neg _ _ (by simp [hhead])]
      exact h0

theorem find?_jsSet_of_not {α : Type} (m : JsMap α)
    (q : String × α → Bool) (k : String) (v : α)
    (hm : ∀ e ∈ m, q e = false) (hv : q (k, v) = true) :
    (jsSet m k v).find? q = some (k, v) := by
  induction m with
  | nil => simp [jsSet, List.find?, hv]
  | cons e rest ih =>
    obtain ⟨k₀, v₀⟩ := e
    have hhead : q (k₀, v₀) = false := hm (k₀, v₀) (List.mem_cons_self _ _)
    by_cases h₀ : k₀ = k
    · subst h₀
      simp [jsSet, List.find?, hv]
    · simp only [jsSet, if_neg h₀, List.find?, hhead]
      exact ih (fun e he => hm e (List.mem_cons_of_mem _ he))

/-! ## String lemmas for the composite keys -/

theorem string_data_append (s t : String) : (s ++ t).data = s.data ++ t.data := by
  cases s
  cases t
  rfl

theorem isPrefixOf_self_append (l t : List Char) :
    l.isPrefixOf (l ++ t) = true := by
  induction l with
  | nil => simp [List.isPrefixOf]
  | cons a as ih => simp [List.isPrefixOf, ih]

/-- A composite key built from a socket id starts with that socket id. -/
theorem jsStartsWith_append (s t : String) : jsStartsWith (s ++ t) s = true := by
  simp [jsStartsWith, string_data_append, isPrefixOf_self_append]

/-! ## Structure of a successful joinRoom -/

theorem joinRoom_found (rooms : JsMap Room) (room : Room)
    (socketId freshId : String) (now : Nat) (roomId : String)
    (userName userId : Option String)
    (h : jsGet rooms roomId = some room) :
    joinRoom rooms socketId freshId now roomId userName userId =
      (jsSet rooms roomId
        (joinRoomOk room socketId freshId now roomId userName userId).1,
       .ok (joinRoomOk room socketId freshId now roomId userName userId).2) := by
  simp [joinRoom, h]

/-- Claim C2: for every accepted joinRoom request, the isHost flag stored in
the new participant entry, the one in the join callback, and the one in the
peer-joined broadcast all equal
`existingParticipant?.isHost || room.participants.size == 0` — true if
inherited (as true) from an existing participant with the same userId,
otherwise true exactly when the participants map is empty at the moment the
new entry is inserted (i.e. after the stale same-userId entry, if any, was
removed). -/
theorem joinRoom_isHost_formula (rooms : JsMap Room) (room : Room)
    (socketId freshId : String) (now : Nat) (roomId : String)
    (userName userId : Option String)
    (h : jsGet rooms roomId = some room) :
    ((joinRoom rooms socketId freshId now roomId userName userId).2).map
        (fun o => o.resp.isHost)
      = .ok (hostDetermination room.participants (jsOrStr userId freshId)) ∧
    ((joinRoom rooms socketId freshId now roomId userName userId).2).map
        (fun o => o.evt.isHost)
      = .ok (hostDetermination room.participants (jsOrStr userId freshId)) ∧
    (jsGet (joinRoom rooms socketId freshId now roomId userName userId).1
        roomId).map
        (fun r => (jsGet r.participants socketId).map Participant.isHost)
      = some (some (hostDetermination room.participants (jsOrStr userId freshId))) := by
  rw [joinRoom_found rooms room socketId freshId now roomId userName userId h]
  cases hfind : room.participants.find?
      (fun e => decide (e.2.userId = jsOrStr userId freshId)) with
  | none =>
    refine ⟨?_, ?_, ?_⟩ <;>
      simp [joinRoomOk, hostDetermination, hfind, Except.map, jsGet_set_self]
  | some e =>
    obtain ⟨oldSid, p⟩ := e
    refine ⟨?_, ?_, ?_⟩ <;>
      simp [joinRoomOk, hostDetermination, hfind, Except.map, jsGet_set_self]

/-- Base room fixture for concrete witnesses: empty collections. -/
def emptyRoom : Room :=
  { id := "r", hostUserId := "h", createdBy := "H",
    participants := [], producers := [], consumers := [],
    producerTransports := [], consumerTransports := [],
    messages := [], createdAt := 0 }

/-- Room fixture for the C2 witness: one host participant present. -/
def roomW2 : Room :=
  { emptyRoom with
    participants := [("s1",
      { socketId := "s1", userId := "h", name := "H",
        joinedAt := 1, isHost := true })] }

/-- Claim C2 witness: the formula evaluated on a concrete scenario — a fresh
user joining a room that already has one (host) participant is not host. -/
theorem joinRoom_isHost_formula_witness :
    ((joinRoom [("r", roomW2)] "s2" "f" 2 "r" (some "B") (some "b")).2).map
      (fun o => o.resp.isHost) = .ok false := by
  have h := joinRoom_isHost_formula [("r", roomW2)] roomW2
    "s2" "f" 2 "r" (some "B") (some "b") (by decide)
  rw [h.1]
  exact congrArg Except.ok (by decide)

/-- Claim C9: for every accepted joinRoom into a room whose stored message
sequence has n elements, the messages field of the join response is exactly
the suffix of the most recent min(n, 50) messages, in stored order, and the
join leaves the stored message sequence unchanged. -/
theorem joinRoom_messages_slice (rooms : JsMap Room) (room : Room)
    (socketId freshId : String) (now : Nat) (roomId : String)
    (userName userId : Option String)
    (h : jsGet rooms roomId = some room) :
    ((joinRoom rooms socketId freshId now roomId userName userId).2).map
        (fun o => o.resp.messages)
      = .ok (room.messages.drop (room.messages.length - 50)) ∧
    (jsGet (joinRoom rooms socketId freshId now roomId userName userId).1
        roomId).map Room.messages
      = some room.messages ∧
    (room.messages.drop (room.messages.length - 50)).length
      = min room.messages.length 50 ∧
    List.IsSuffix (room.messages.drop (room.messages.length - 50))
      room.messages := by
  rw [joinRoom_found rooms room socketId freshId now roomId userName userId h]
  refine ⟨?_, ?_, ?_, ?_⟩
  · simp [joinRoomOk, Except.map]
  · simp [joinRoomOk, jsGet_set_self]
  · rw [List.length_drop]
    omega
  · exact List.drop_suffix _ _

/-- A chat message fixture used by the C9 witness. -/
def msgW (i : Nat) (txt : String) : Message :=
  { id := txt, userId := "h", userName := "H", message := txt, timestamp := i }

/-- Room fixture for the C9 witness: three stored messages. -/
def roomW9 : Room :=
  { emptyRoom with messages := [msgW 1 "a", msgW 2 "b", msgW 3 "c"] }

/-- Claim C9 witness: with three stored messages the join response carries
all three, in stored order. -/
theorem joinRoom_messages_slice_witness :
    ((joinRoom [("r", roomW9)] "s1" "f" 4 "r" (some "H") (some "h")).2).map
      (fun o => o.resp.messages)
    = .ok [msgW 1 "a", msgW 2 "b", msgW 3 "c"] := by
  have h := joinRoom_messages_slice [("r", roomW9)] roomW9
    "s1" "f" 4 "r" (some "H") (some "h") (by decide)
  rw [h.1]
  exact congrArg Except.ok (by decide)

/-! ## Claim C1: reconnection replaces the old entry -/

/-- Claim C1, amended: for every accepted joinRoom whose (provided, non-empty)
userId matches an existing participant under a different socket id, the join
removes the old participant entry, the new entry inherits the old entry's
original joinedAt unconditionally, its isHost flag is
`old.isHost || (participants-after-removal empty)` — i.e. isHost is inherited
whenever the old entry was host or other participants remain, while a sole
non-host participant is promoted to host on rejoin — and immediately after
the join the participants map contains exactly one entry with that userId
(given it contained at most one before). -/
theorem joinRoom_same_userId_replaces (rooms : JsMap Room) (room : Room)
    (socketId freshId : String) (now : Nat) (roomId : String)
    (userName : Option String) (uid oldSid : String) (oldP : Participant)
    (h : jsGet rooms roomId = some room)
    (huid : uid ≠ "")
    (hfind : room.participants.find? (fun e => decide (e.2.userId = uid))
      = some (oldSid, oldP))
    (hne : oldSid ≠ socketId)
    (hnd : NodupKeys room.participants)
    (hcount : room.participants.countP (fun e => decide (e.2.userId = uid)) ≤ 1) :
    (jsGet (joinRoom rooms socketId freshId now roomId userName (some uid)).1
        roomId).map (fun r => jsGet r.participants oldSid)
      = some none ∧
    (jsGet (joinRoom rooms socketId freshId now roomId userName (some uid)).1
        roomId).map
        (fun r => (jsGet r.participants socketId).map Participant.joinedAt)
      = some (some oldP.joinedAt) ∧
    (jsGet (joinRoom rooms socketId freshId now roomId userName (some uid)).1
        roomId).map
        (fun r => (jsGet r.participants socketId).map Participant.isHost)
      = some (some (oldP.isHost || (jsDelete room.participants oldSid).isEmpty)) ∧
    (jsGet (joinRoom rooms socketId freshId now roomId userName (some uid)).1
        roomId).map
        (fun r => r.participants.countP (fun e => decide (e.2.userId = uid)))
      = some 1 := by
  have hjs : jsOrStr (some uid) freshId = uid := by
    simp [jsOrStr, huid]
  have hmem : (oldSid, oldP) ∈ room.participants :=
    List.mem_of_find?_eq_some hfind
  have hpred : decide (oldP.userId = uid) = true := by
    simpa using List.find?_some hfind
  have hdel0 : (jsDelete room.participants oldSid).countP
      (fun e => decide (e.2.userId = uid)) = 0 :=
    countP_jsDelete_found room.participants _ oldSid oldP hnd hmem hpred hcount
  have hpost : jsGet
      (joinRoom rooms socketId freshId now roomId userName (some uid)).1 roomId
      = some (joinRoomOk room socketId freshId now roomId userName (some uid)).1 := by
    rw [joinRoom_found rooms room socketId freshId now roomId userName (some uid) h]
    exact jsGet_set_self rooms roomId _
  have hparts : (joinRoomOk room socketId freshId now roomId userName
      (some uid)).1.participants
      = jsSet (jsDelete room.participants oldSid) socketId
        { socketId := socketId, userId := uid,
          name := jsOrStr userName "Anonymous",
          joinedAt := oldP.joinedAt,
          isHost := oldP.isHost || (jsDelete room.participants oldSid).isEmpty } := by
    simp [joinRoomOk, hjs, hfind]
  refine ⟨?_, ?_, ?_, ?_⟩
  · rw [hpost, Option.map_some']
    rw [hparts, jsGet_set_ne _ _ hne, jsGet_delete_self _ _ hnd]
  · rw [hpost, Option.map_some']
    rw [hparts, jsGet_set_self]
    rfl
  · rw [hpost, Option.map_some']
    rw [hparts, jsGet_set_self]
    rfl
  · rw [hpost, Option.map_some']
    rw [hparts, countP_jsSet_of_zero _ _ _ _ hdel0]
    simp

/-- Room fixture refuting literal isHost inheritance: a single non-host
participant (the host left earlier). -/
def roomC1cex : Room :=
  { emptyRoom with
    participants := [("s1",
      { socketId := "s1", userId := "u", name := "G",
        joinedAt := 5, isHost := false })] }

/-- Claim C1 counterexample: the sole remaining participant has
isHost = false; when they rejoin under a new socket id, the new entry does
NOT inherit that flag — the code computes
`existingParticipant?.isHost || room.participants.size === 0` after removing
the stale entry, so the rejoiner is promoted to host. -/
theorem joinRoom_isHost_not_inherited_cex :
    (jsGet roomC1cex.participants "s1").map Participant.isHost = some false ∧
    ((joinRoom [("r", roomC1cex)] "s2" "f" 7 "r" (some "G") (some "u")).2).map
      (fun o => o.resp.isHost) = .ok true ∧
    ¬ (((joinRoom [("r", roomC1cex)] "s2" "f" 7 "r" (some "G") (some "u")).2).map
        (fun o => o.resp.isHost) = .ok false) := by
  refine ⟨by decide, ?_, ?_⟩
  · have h := joinRoom_isHost_formula [("r", roomC1cex)] roomC1cex
      "s2" "f" 7 "r" (some "G") (some "u") (by decide)
    rw [h.1]
    exact congrArg Except.ok (by decide)
  · intro hc
    have h := joinRoom_isHost_formula [("r", roomC1cex)] roomC1cex
      "s2" "f" 7 "r" (some "G") (some "u") (by decide)
    rw [h.1] at hc
    exact absurd (Except.ok.inj hc) (by decide)

/-- Room fixture for the C1 witness: a host plus a second participant; the
host reconnects under a new socket id. -/
def roomC1w : Room :=
  { emptyRoom with
    participants := [
      ("s1", { socketId := "s1", userId := "u", name := "G",
               joinedAt := 5, isHost := true }),
      ("s3", { socketId := "s3", userId := "w", name := "W",
               joinedAt := 6, isHost := false })] }

/-- Claim C1 witness: concrete reconnection — old entry removed, joinedAt
and isHost inherited, exactly one entry with the userId afterwards. -/
theorem joinRoom_same_userId_replaces_witness :
    (jsGet (joinRoom [("r", roomC1w)] "s2" "f" 9 "r" (some "G") (some "u")).1
        "r").map (fun r => jsGet r.participants "s1") = some none ∧
    (jsGet (joinRoom [("r", roomC1w)] "s2" "f" 9 "r" (some "G") (some "u")).1
        "r").map
        (fun r => (jsGet r.participants "s2").map Participant.joinedAt)
      = some (some 5) ∧
    (jsGet (joinRoom [("r", roomC1w)] "s2" "f" 9 "r" (some "G") (some "u")).1
        "r").map
        (fun r => r.participants.countP (fun e => decide (e.2.userId = "u")))
      = some 1 := by
  have h := joinRoom_same_userId_replaces [("r", roomC1w)] roomC1w
    "s2" "f" 9 "r" (some "G") "u" "s1"
    { socketId := "s1", userId := "u", name := "G", joinedAt := 5, isHost := true }
    (by decide) (by decide) (by decide) (by decide) (by decide) (by decide)
  exact ⟨h.1, h.2.1, h.2.2.2⟩

/-! ## Claim C8: the existingProducers list -/

theorem existingProducersOf_spec (prods : JsMap Producer)
    (parts : JsMap Participant) (u : String) :
    (∀ i ∈ existingProducersOf prods parts u,
      ∃ p, jsGet parts i.socketId = some p ∧ p.userId ≠ u ∧
        i.userId = some p.userId) ∧
    (∀ e ∈ prods, ∀ p, jsGet parts (keySocketOf e.1) = some p →
      p.userId ≠ u →
      ∃ i, i ∈ existingProducersOf prods parts u ∧ i.producerId = e.2.id ∧
        i.socketId = keySocketOf e.1 ∧ i.kind = e.2.kind ∧
        i.userId = some p.userId) := by
  constructor
  · intro i hi
    simp only [existingProducersOf, List.mem_map, List.mem_filter] at hi
    obtain ⟨e, ⟨hmem, hf⟩, rfl⟩ := hi
    cases hp : jsGet parts (keySocketOf e.1) with
    | none =>
      rw [hp] at hf
      simp at hf
    | some p =>
      rw [hp] at hf
      simp only [decide_eq_true_eq] at hf
      exact ⟨p, rfl, hf, by simp⟩
  · intro e he p hp hne
    refine ⟨_, List.mem_map_of_mem _ (List.mem_filter.mpr ⟨he, ?_⟩),
      rfl, rfl, rfl, by simp [hp]⟩
    rw [hp]
    simpa using hne

theorem joinRoomOk_existingProducers (room : Room)
    (socketId freshId : String) (now : Nat) (roomId : String)
    (userName userId : Option String) :
    (joinRoomOk room socketId freshId now roomId userName userId).2.resp.existingProducers
      = existingProducersOf room.producers
          (joinRoomOk room socketId freshId now roomId userName userId).1.participants
          (jsOrStr userId freshId) := by
  cases hfind : room.participants.find?
      (fun e => decide (e.2.userId = jsOrStr userId freshId)) with
  | none => simp [joinRoomOk, hfind]
  | some e =>
    obtain ⟨a, b⟩ := e
    simp [joinRoomOk, hfind]

/-- Claim C8, amended: for every accepted joinRoom request, the
existingProducers list contains exactly the producers whose key's socket
prefix (the part before the first dash) resolves, in the post-join
participants map, to a participant whose userId differs from the joining
client's userId — so it excludes every producer owned by a same-userId
participant regardless of socket id, but it also omits producers whose
owning socket no longer has a participant entry (e.g. stale producers left
by a replaced session). The producers map itself is unchanged by the
join. -/
theorem joinRoom_existingProducers_spec (rooms : JsMap Room)
    (room room' : Room) (socketId freshId : String) (now : Nat)
    (roomId : String) (userName userId : Option String) (out : JoinOk)
    (h : jsGet rooms roomId = some room)
    (hok : (joinRoom rooms socketId freshId now roomId userName userId).2
      = .ok out)
    (hroom' : jsGet
      (joinRoom rooms socketId freshId now roomId userName userId).1 roomId
      = some room') :
    room'.producers = room.producers ∧
    (∀ i ∈ out.resp.existingProducers,
      ∃ p, jsGet room'.participants i.socketId = some p ∧
        p.userId ≠ jsOrStr userId freshId ∧ i.userId = some p.userId) ∧
    (∀ e ∈ room.producers, ∀ p,
      jsGet room'.participants (keySocketOf e.1) = some p →
      p.userId ≠ jsOrStr userId freshId →
      ∃ i, i ∈ out.resp.existingProducers ∧ i.producerId = e.2.id ∧
        i.socketId = keySocketOf e.1 ∧ i.kind = e.2.kind ∧
        i.userId = some p.userId) := by
  rw [joinRoom_found rooms room socketId freshId now roomId userName userId h]
    at hok hroom'
  rw [jsGet_set_self] at hroom'
  have hout : out
      = (joinRoomOk room socketId freshId now roomId userName userId).2 :=
    (Except.ok.inj hok).symm
  have hr : room'
      = (joinRoomOk room socketId freshId now roomId userName userId).1 :=
    (Option.some.inj hroom').symm
  subst hout
  subst hr
  rw [joinRoomOk_existingProducers]
  refine ⟨rfl, (existingProducersOf_spec _ _ _).1, ?_⟩
  intro e he p hp hne
  exact (existingProducersOf_spec room.producers _ _).2 e he p hp hne

/-- Room fixture refuting the literal inclusion claim: one current
participant, plus a producer whose owning socket `sOld` has no participant
entry (a stale producer of a replaced session). -/
def roomC8cex : Room :=
  { emptyRoom with
    participants := [("s1",
      { socketId := "s1", userId := "u", name := "U",
        joinedAt := 1, isHost := true })],
    producers := [("sOld-video",
      { id := "p0", kind := MediaKind.video, closed := false })] }

/-- Claim C8 counterexample: user "v" (distinct from every participant's
userId) joins, yet the returned existingProducers list is empty although
the room still contains the producer `sOld-video` — a producer not owned by
any participant with the joiner's userId. The code omits it because its
owning socket has no participant entry. -/
theorem joinRoom_existingProducers_omits_orphan_cex :
    ((joinRoom [("r", roomC8cex)] "s2" "f" 3 "r" (some "V") (some "v")).2).map
        (fun o => o.resp.existingProducers) = .ok [] ∧
    (jsGet (joinRoom [("r", roomC8cex)] "s2" "f" 3 "r"
        (some "V") (some "v")).1 "r").map
        (fun r => jsGet r.producers "sOld-video")
      = some (some { id := "p0", kind := MediaKind.video, closed := false }) ∧
    (jsGet (joinRoom [("r", roomC8cex)] "s2" "f" 3 "r"
        (some "V") (some "v")).1 "r").map
        (fun r => jsGet r.participants (keySocketOf "sOld-video"))
      = some none := by
  exact ⟨rfl, rfl, rfl⟩

/-- Room fixture for the C8 witness: one participant owning one producer. -/
def roomC8w : Room :=
  { emptyRoom with
    participants := [("s1",
      { socketId := "s1", userId := "u", name := "U",
        joinedAt := 1, isHost := true })],
    producers := [("s1-video",
      { id := "p1", kind := MediaKind.video, closed := false })] }

/-- The join result of the C8 witness scenario, spelled out. -/
def outC8w : JoinOk :=
  { resp :=
      { roomId := "r", userId := "v", isHost := false,
        participants := [
          { socketId := "s1", userId := "u", name := "U",
            joinedAt := 1, isHost := true },
          { socketId := "s2", userId := "v", name := "V",
            joinedAt := 3, isHost := false }],
        existingProducers := [
          { producerId := "p1", socketId := "s1", userId := some "u",
            kind := MediaKind.video }],
        messages := [] },
    evt :=
      { socketId := "s2", userId := "v", userName := "V",
        isHost := false, isReconnection := false } }

/-- The post-join room of the C8 witness scenario, spelled out. -/
def roomC8w' : Room :=
  { roomC8w with
    participants := [
      ("s1",
        { socketId := "s1", userId := "u", name := "U",
          joinedAt := 1, isHost := true }),
      ("s2",
        { socketId := "s2", userId := "v", name := "V",
          joinedAt := 3, isHost := false })] }

/-- Claim C8 witness: concrete join where another participant's producer is
listed with its owner's userId, and both directions of the amended
characterization hold at this input. -/
theorem joinRoom_existingProducers_spec_witness :
    roomC8w'.producers = roomC8w.producers ∧
    (∀ i ∈ outC8w.resp.existingProducers,
      ∃ p, jsGet roomC8w'.participants i.socketId = some p ∧
        p.userId ≠ jsOrStr (some "v") "f" ∧ i.userId = some p.userId) := by
  have h := joinRoom_existingProducers_spec [("r", roomC8w)] roomC8w roomC8w'
    "s2" "f" 3 "r" (some "V") (some "v") outC8w (by decide) (by decide)
    (by decide)
  exact ⟨h.1, h.2.1⟩

/-! ## Claim C3: produce is replace-on-republish -/

/-- Claim C3: calling produce twice with the same kind from the same session
leaves exactly one live producer of that kind registered for the session:
the first call registers its producer under the key `socketId-kind`; the
second call closes precisely the first producer (its id is the whole closed
list of that call, computed before the new producer is stored) and
afterwards the producers map holds exactly one entry under that key — the
second, live producer. -/
theorem produce_same_kind_replaces (room : Room) (socketId userId : String)
    (kind : MediaKind) (id1 id2 : String) (t : Transport)
    (ht : jsGet room.producerTransports socketId = some t)
    (hnd : NodupKeys room.producers) :
    ((produce room socketId userId kind id1).2.2).map (fun o => o.id)
      = .ok id1 ∧
    jsGet (produce room socketId userId kind id1).1.producers
        (socketId ++ "-" ++ kind.toKey)
      = some { id := id1, kind := kind, closed := false } ∧
    (produce (produce room socketId userId kind id1).1
        socketId userId kind id2).2.1
      = [id1] ∧
    entriesWithKey
        (produce (produce room socketId userId kind id1).1
          socketId userId kind id2).1.producers
        (socketId ++ "-" ++ kind.toKey)
      = [(socketId ++ "-" ++ kind.toKey,
          { id := id2, kind := kind, closed := false })] := by
  cases hstep : jsGet room.producers (socketId ++ "-" ++ kind.toKey) with
  | none =>
    refine ⟨by simp [produce, ht, hstep, Except.map],
      by simp [produce, ht, hstep, jsGet_set_self],
      by simp [produce, ht, hstep, jsGet_set_self], ?_⟩
    simp only [produce, ht, hstep, jsGet_set_self]
    exact entriesWithKey_jsSet_self _ _ _
      (nodupKeys_jsDelete _ _ (nodupKeys_jsSet _ _ _ hnd))
  | some p0 =>
    refine ⟨by simp [produce, ht, hstep, Except.map],
      by simp [produce, ht, hstep, jsGet_set_self],
      by simp [produce, ht, hstep, jsGet_set_self], ?_⟩
    simp only [produce, ht, hstep, jsGet_set_self]
    exact entriesWithKey_jsSet_self _ _ _
      (nodupKeys_jsDelete _ _ (nodupKeys_jsSet _ _ _ (nodupKeys_jsDelete _ _ hnd)))

/-- Room fixture for the C3 witness: a session with a producer transport. -/
def roomC3w : Room :=
  { emptyRoom with
    producerTransports := [("s1", { id := "t1", closed := false })] }

/-- Claim C3 witness: two concrete video produce calls from the same
session; the second closes exactly the first producer and one live producer
remains under the session-kind key. -/
theorem produce_same_kind_replaces_witness :
    (produce (produce roomC3w "s1" "u" MediaKind.video "p1").1
        "s1" "u" MediaKind.video "p2").2.1 = ["p1"] ∧
    entriesWithKey
        (produce (produce roomC3w "s1" "u" MediaKind.video "p1").1
          "s1" "u" MediaKind.video "p2").1.producers "s1-video"
      = [("s1-video", { id := "p2", kind := MediaKind.video, closed := false })] := by
  have h := produce_same_kind_replaces roomC3w "s1" "u" MediaKind.video
    "p1" "p2" { id := "t1", closed := false } (by decide) (by decide)
  exact ⟨h.2.2.1, h.2.2.2⟩

/-! ## Claims C7 and C10: consume -/

/-- Claim C7: a consume request whose (producerId, rtpCapabilities) fail the
router's canConsume check answers the callback with an error, creates and
stores nothing: the whole room — in particular its consumers map — is
returned unchanged. -/
theorem consume_incompatible_rejected (canConsume : String → String → Bool)
    (room : Room)
    (socketId producerId rtpCapabilities freshConsumerId : String)
    (engineKind : MediaKind) (engineRtpParameters : String)
    (h : canConsume producerId rtpCapabilities = false) :
    consume canConsume room socketId producerId rtpCapabilities
        freshConsumerId engineKind engineRtpParameters
      = (room, .error "Cannot consume this producer") := by
  simp [consume, h]

/-- Claim C7 witness: concrete rejected consume leaves the room unchanged. -/
theorem consume_incompatible_rejected_witness :
    consume (fun _ _ => false) roomC8cex "s1" "p0" "caps" "c1"
        MediaKind.video "rtp"
      = (roomC8cex, .error "Cannot consume this producer") :=
  consume_incompatible_rejected (fun _ _ => false) roomC8cex
    "s1" "p0" "caps" "c1" MediaKind.video "rtp" rfl

/-- Claim C10: every successful consume stores a consumer handle created
with paused := true (the server passes `paused: true` to the transport's
consume call), and a subsequent successful resumeConsumer for that consumer
id is what clears the paused flag. -/
theorem consume_starts_paused (canConsume : String → String → Bool)
    (room : Room)
    (socketId producerId rtpCapabilities freshConsumerId : String)
    (engineKind : MediaKind) (engineRtpParameters : String) (t : Transport)
    (hcan : canConsume producerId rtpCapabilities = true)
    (ht : jsGet room.consumerTransports socketId = some t)
    (hfresh : ∀ e ∈ room.consumers, e.2.id ≠ freshConsumerId) :
    ((consume canConsume room socketId producerId rtpCapabilities
        freshConsumerId engineKind engineRtpParameters).2).map (fun o => o.id)
      = .ok freshConsumerId ∧
    jsGet (consume canConsume room socketId producerId rtpCapabilities
          freshConsumerId engineKind engineRtpParameters).1.consumers
        (socketId ++ "-" ++ producerId)
      = some (transportConsume freshConsumerId producerId engineKind
          engineRtpParameters true) ∧
    (transportConsume freshConsumerId producerId engineKind
        engineRtpParameters true).paused = true ∧
    (resumeConsumer (consume canConsume room socketId producerId
        rtpCapabilities freshConsumerId engineKind
        engineRtpParameters).1 freshConsumerId).2 = .ok () ∧
    jsGet (resumeConsumer (consume canConsume room socketId producerId
          rtpCapabilities freshConsumerId engineKind
          engineRtpParameters).1 freshConsumerId).1.consumers
        (socketId ++ "-" ++ producerId)
      = some { transportConsume freshConsumerId producerId engineKind
          engineRtpParameters true with paused := false } := by
  have hfind : (jsSet room.consumers (socketId ++ "-" ++ producerId)
        (transportConsume freshConsumerId producerId engineKind
          engineRtpParameters true)).find?
        (fun e => decide (e.2.id = freshConsumerId))
      = some (socketId ++ "-" ++ producerId,
          transportConsume freshConsumerId producerId engineKind
            engineRtpParameters true) := by
    refine find?_jsSet_of_not _ _ _ _ (fun e he => ?_)
      (by simp [transportConsume])
    simpa using hfresh e he
  refine ⟨?_, ?_, rfl, ?_, ?_⟩
  · simp [consume, hcan, ht, Except.map, transportConsume]
  · simp [consume, hcan, ht, jsGet_set_self]
  · simp [consume, hcan, ht, resumeConsumer, hfind]
  · simp [consume, hcan, ht, resumeConsumer, hfind, jsGet_set_self]

/-- Room fixture for the C10 witness: a session with a consumer transport. -/
def roomC10w : Room :=
  { emptyRoom with
    consumerTransports := [("s1", { id := "t2", closed := false })] }

/-- Claim C10 witness: a concrete successful consume stores a paused
consumer, and resuming it clears the flag. -/
theorem consume_starts_paused_witness :
    jsGet (consume (fun _ _ => true) roomC10w "s1" "p1" "caps" "c1"
          MediaKind.audio "rtp").1.consumers "s1-p1"
      = some (transportConsume "c1" "p1" MediaKind.audio "rtp" true) ∧
    (transportConsume "c1" "p1" MediaKind.audio "rtp" true).paused = true ∧
    jsGet (resumeConsumer (consume (fun _ _ => true) roomC10w "s1" "p1"
          "caps" "c1" MediaKind.audio "rtp").1 "c1").1.consumers "s1-p1"
      = some { transportConsume "c1" "p1" MediaKind.audio "rtp" true with
          paused := false } := by
  have h := consume_starts_paused (fun _ _ => true) roomC10w
    "s1" "p1" "caps" "c1" MediaKind.audio "rtp"
    { id := "t2", closed := false } rfl (by decide) (by simp [roomC10w, emptyRoom])
  exact ⟨h.2.1, h.2.2.1, h.2.2.2.2⟩

/-! ## Claims C4 and C5: disconnect cleanup -/

theorem jsGet_sessionCleanupRoom_pt (room : Room) (socketId : String)
    (hnd : NodupKeys room.producerTransports) :
    jsGet (sessionCleanupRoom room socketId).producerTransports socketId
      = none := by
  cases hpt : jsGet room.producerTransports socketId with
  | some t => simp [sessionCleanupRoom, hpt, jsGet_delete_self _ _ hnd]
  | none => simp [sessionCleanupRoom, hpt]

theorem jsGet_sessionCleanupRoom_ct (room : Room) (socketId : String)
    (hnd : NodupKeys room.consumerTransports) :
    jsGet (sessionCleanupRoom room socketId).consumerTransports socketId
      = none := by
  cases hct : jsGet room.consumerTransports socketId with
  | some t => simp [sessionCleanupRoom, hct, jsGet_delete_self _ _ hnd]
  | none => simp [sessionCleanupRoom, hct]

theorem jsStartsWith_key (socketId rest : String) :
    jsStartsWith (socketId ++ "-" ++ rest) socketId = true := by
  rw [String.append_assoc]
  exact jsStartsWith_append socketId ("-" ++ rest)

theorem jsGet_sessionCleanupRoom_producers (room : Room)
    (socketId rest : String) :
    jsGet (sessionCleanupRoom room socketId).producers
      (socketId ++ "-" ++ rest) = none :=
  jsGet_filter_eq_none room.producers _ _
    (fun v => by simp [jsStartsWith_key])

theorem jsGet_sessionCleanupRoom_consumers (room : Room)
    (socketId rest : String) :
    jsGet (sessionCleanupRoom room socketId).consumers
      (socketId ++ "-" ++ rest) = none :=
  jsGet_filter_eq_none room.consumers _ _
    (fun v => by simp [jsStartsWith_key])

theorem sessionClosedIds_pt (room : Room) (socketId : String)
    (t : Transport) (h : jsGet room.producerTransports socketId = some t) :
    t.id ∈ sessionClosedIds room socketId := by
  simp [sessionClosedIds, h]

theorem sessionClosedIds_ct (room : Room) (socketId : String)
    (t : Transport) (h : jsGet room.consumerTransports socketId = some t) :
    t.id ∈ sessionClosedIds room socketId := by
  simp [sessionClosedIds, h]

theorem sessionClosedIds_producer (room : Room) (socketId : String)
    (e : String × Producer) (he : e ∈ room.producers)
    (hsw : jsStartsWith e.1 socketId = true) :
    e.2.id ∈ sessionClosedIds room socketId := by
  have hx : e.2.id ∈ (room.producers.filter
      (fun e2 => jsStartsWith e2.1 socketId)).map (fun e2 => e2.2.id) :=
    List.mem_map_of_mem _ (List.mem_filter.mpr ⟨he, hsw⟩)
  simp only [sessionClosedIds, List.mem_append]
  tauto

theorem sessionClosedIds_consumer (room : Room) (socketId : String)
    (e : String × Consumer) (he : e ∈ room.consumers)
    (hsw : jsStartsWith e.1 socketId = true) :
    e.2.id ∈ sessionClosedIds room socketId := by
  have hx : e.2.id ∈ (room.consumers.filter
      (fun e2 => jsStartsWith e2.1 socketId)).map (fun e2 => e2.2.id) :=
    List.mem_map_of_mem _ (List.mem_filter.mpr ⟨he, hsw⟩)
  simp only [sessionClosedIds, List.mem_append]
  tauto

theorem disconnectRoom_closedIds_mem (room : Room)
    (socketId userId x : String) (hx : x ∈ sessionClosedIds room socketId) :
    x ∈ (disconnectRoom room socketId userId).2.closedIds := by
  by_cases hemp : (sessionCleanupRoom room socketId).participants.isEmpty = true
  · simp only [disconnectRoom, hemp, if_pos]
    exact List.mem_append_left _ (by simpa [sessionEffects] using hx)
  · simp only [disconnectRoom, hemp, if_neg, Bool.not_eq_true]
    simpa [sessionEffects] using hx

theorem disconnectRoom_producerClosed (room : Room)
    (socketId userId : String) :
    (disconnectRoom room socketId userId).2.producerClosed
      = (room.producers.filter (fun e => jsStartsWith e.1 socketId)).map
          (fun e =>
            ({ producerId := e.2.id, socketId := socketId,
               userId := userId } : ProducerClosedEvt)) := by
  by_cases hemp : (sessionCleanupRoom room socketId).participants.isEmpty = true <;>
    simp [disconnectRoom, hemp, sessionEffects]

theorem disconnectRoom_pt_none (room : Room) (socketId userId : String)
    (hnd : NodupKeys room.producerTransports) :
    jsGet (disconnectRoom room socketId userId).1.producerTransports socketId
      = none := by
  have h1 := jsGet_sessionCleanupRoom_pt room socketId hnd
  by_cases hemp : (sessionCleanupRoom room socketId).participants.isEmpty = true
  · simp [disconnectRoom, hemp, closeRemaining, jsGet_map_pair, h1]
  · simp [disconnectRoom, hemp, h1]

theorem disconnectRoom_ct_none (room : Room) (socketId userId : String)
    (hnd : NodupKeys room.consumerTransports) :
    jsGet (disconnectRoom room socketId userId).1.consumerTransports socketId
      = none := by
  have h1 := jsGet_sessionCleanupRoom_ct room socketId hnd
  by_cases hemp : (sessionCleanupRoom room socketId).participants.isEmpty = true
  · simp [disconnectRoom, hemp, closeRemaining, jsGet_map_pair, h1]
  · simp [disconnectRoom, hemp, h1]

theorem disconnectRoom_producers_none (room : Room)
    (socketId userId rest : String) :
    jsGet (disconnectRoom room socketId userId).1.producers
      (socketId ++ "-" ++ rest) = none := by
  have h1 := jsGet_sessionCleanupRoom_producers room socketId rest
  by_cases hemp : (sessionCleanupRoom room socketId).participants.isEmpty = true
  · simp [disconnectRoom, hemp, closeRemaining, jsGet_map_pair, h1]
  · simp [disconnectRoom, hemp, h1]

theorem disconnectRoom_consumers_none (room : Room)
    (socketId userId rest : String) :
    jsGet (disconnectRoom room socketId userId).1.consumers
      (socketId ++ "-" ++ rest) = none := by
  have h1 := jsGet_sessionCleanupRoom_consumers room socketId rest
  by_cases hemp : (sessionCleanupRoom room socketId).participants.isEmpty = true
  · simp [disconnectRoom, hemp, closeRemaining, jsGet_map_pair, h1]
  · simp [disconnectRoom, hemp, h1]

theorem disconnectRooms_found (rooms : JsMap Room) (room : Room)
    (roomId socketId userId : String)
    (h : jsGet rooms roomId = some room) :
    disconnectRooms rooms roomId socketId userId
      = (jsSet rooms roomId (disconnectRoom room socketId userId).1,
         (disconnectRoom room socketId userId).2) := by
  simp [disconnectRooms, h]

/-- Claim C4: after the disconnect handler completes for a session that had
joined a room, the room holds no transport, producer or consumer
attributable to that session — its transport entries are gone, no producer
or consumer key of the form `socketId-...` remains — the handler emitted
exactly one producerClosed per producer of the session (in map order), and
the ids of the session's transports, producers and consumers all appear
among the closed handles. -/
theorem disconnect_session_cleanup (rooms : JsMap Room) (room room' : Room)
    (roomId socketId userId : String)
    (h : jsGet rooms roomId = some room)
    (hndP : NodupKeys room.producerTransports)
    (hndC : NodupKeys room.consumerTransports)
    (hroom' : jsGet (disconnectRooms rooms roomId socketId userId).1 roomId
      = some room') :
    jsGet room'.producerTransports socketId = none ∧
    jsGet room'.consumerTransports socketId = none ∧
    (∀ rest, jsGet room'.producers (socketId ++ "-" ++ rest) = none) ∧
    (∀ rest, jsGet room'.consumers (socketId ++ "-" ++ rest) = none) ∧
    (disconnectRooms rooms roomId socketId userId).2.producerClosed
      = (room.producers.filter (fun e => jsStartsWith e.1 socketId)).map
          (fun e =>
            ({ producerId := e.2.id, socketId := socketId,
               userId := userId } : ProducerClosedEvt)) ∧
    (∀ tr, jsGet room.producerTransports socketId = some tr →
      tr.id ∈ (disconnectRooms rooms roomId socketId userId).2.closedIds) ∧
    (∀ tr, jsGet room.consumerTransports socketId = some tr →
      tr.id ∈ (disconnectRooms rooms roomId socketId userId).2.closedIds) ∧
    (∀ e ∈ room.producers, jsStartsWith e.1 socketId = true →
      e.2.id ∈ (disconnectRooms rooms roomId socketId userId).2.closedIds) ∧
    (∀ e ∈ room.consumers, jsStartsWith e.1 socketId = true →
      e.2.id ∈ (disconnectRooms rooms roomId socketId userId).2.closedIds) := by
  rw [disconnectRooms_found rooms room roomId socketId userId h] at hroom' ⊢
  rw [jsGet_set_self] at hroom'
  have hr : room' = (disconnectRoom room socketId userId).1 :=
    (Option.some.inj hroom').symm
  subst hr
  refine ⟨disconnectRoom_pt_none room socketId userId hndP,
    disconnectRoom_ct_none room socketId userId hndC,
    fun rest => disconnectRoom_producers_none room socketId userId rest,
    fun rest => disconnectRoom_consumers_none room socketId userId rest,
    disconnectRoom_producerClosed room socketId userId,
    fun tr htr => disconnectRoom_closedIds_mem room socketId userId tr.id
      (sessionClosedIds_pt room socketId tr htr),
    fun tr htr => disconnectRoom_closedIds_mem room socketId userId tr.id
      (sessionClosedIds_ct room socketId tr htr),
    fun e he hsw => disconnectRoom_closedIds_mem room socketId userId e.2.id
      (sessionClosedIds_producer room socketId e he hsw),
    fun e he hsw => disconnectRoom_closedIds_mem room socketId userId e.2.id
      (sessionClosedIds_consumer room socketId e he hsw)⟩

/-- Room fixture for the C4 witness: session s1 (with transports, a
producer, and a consumer) disconnects while s3 stays. -/
def roomC4w : Room :=
  { emptyRoom with
    participants := [
      ("s1",
        { socketId := "s1", userId := "u", name := "U",
          joinedAt := 1, isHost := true }),
      ("s3",
        { socketId := "s3", userId := "w", name := "W",
          joinedAt := 2, isHost := false })],
    producerTransports := [("s1", { id := "t1", closed := false })],
    consumerTransports := [("s1", { id := "t2", closed := false })],
    producers := [
      ("s1-video", { id := "pv", kind := MediaKind.video, closed := false }),
      ("s3-video", { id := "pw", kind := MediaKind.video, closed := false })],
    consumers := [("s1-pw",
      { id := "cw", producerId := "pw", kind := MediaKind.video,
        rtpParameters := "rtp", paused := false, closed := false })] }

/-- The post-disconnect room of the C4 witness, spelled out. -/
def roomC4w' : Room :=
  { roomC4w with
    participants := [
      ("s3",
        { socketId := "s3", userId := "w", name := "W",
          joinedAt := 2, isHost := false })],
    producerTransports := [],
    consumerTransports := [],
    producers := [
      ("s3-video", { id := "pw", kind := MediaKind.video, closed := false })],
    consumers := [] }

/-- Claim C4 witness: the concrete disconnect of s1 empties all of its
entries, emits one producerClosed for its producer and closes its four
handles. -/
theorem disconnect_session_cleanup_witness :
    jsGet roomC4w'.producerTransports "s1" = none ∧
    (disconnectRooms [("r", roomC4w)] "r" "s1" "u").2.producerClosed
      = [{ producerId := "pv", socketId := "s1", userId := "u" }] ∧
    "t1" ∈ (disconnectRooms [("r", roomC4w)] "r" "s1" "u").2.closedIds ∧
    "pv" ∈ (disconnectRooms [("r", roomC4w)] "r" "s1" "u").2.closedIds ∧
    "cw" ∈ (disconnectRooms [("r", roomC4w)] "r" "s1" "u").2.closedIds := by
  have h := disconnect_session_cleanup [("r", roomC4w)] roomC4w roomC4w'
    "r" "s1" "u" (by decide) (by decide) (by decide) (by decide)
  refine ⟨h.1, ?_, ?_, ?_, ?_⟩
  · rw [h.2.2.2.2.1]
    decide
  · exact h.2.2.2.2.2.1 { id := "t1", closed := false } (by decide)
  · exact h.2.2.2.2.2.2.2.1
      ("s1-video", { id := "pv", kind := MediaKind.video, closed := false })
      (by decide) (by decide)
  · exact h.2.2.2.2.2.2.2.2
      ("s1-pw",
        { id := "cw", producerId := "pw", kind := MediaKind.video,
          rtpParameters := "rtp", paused := false, closed := false })
      (by decide) (by decide)

/-- Claim C5: when the last participant of a room disconnects (the
participants map becomes empty), the room is NOT removed from the registry:
looking it up still succeeds, now with an empty participants map. -/
theorem disconnect_retains_empty_room (rooms : JsMap Room) (room : Room)
    (roomId socketId userId : String)
    (h : jsGet rooms roomId = some room)
    (hlast : jsDelete room.participants socketId = []) :
    (jsGet (disconnectRooms rooms roomId socketId userId).1 roomId).map
        (fun r => r.participants)
      = some [] := by
  rw [disconnectRooms_found rooms room roomId socketId userId h]
  rw [jsGet_set_self, Option.map_some']
  have hemp : (sessionCleanupRoom room socketId).participants.isEmpty = true := by
    simp [sessionCleanupRoom, hlast]
  simp [disconnectRoom, hemp, closeRemaining, sessionCleanupRoom, hlast]

/-- Claim C5 witness: the only participant of a concrete room disconnects;
the room is still present in the registry, with no participants. -/
theorem disconnect_retains_empty_room_witness :
    (jsGet (disconnectRooms [("r", roomW2)] "r" "s1" "h").1 "r").map
        (fun r => r.participants)
      = some [] :=
  disconnect_retains_empty_room [("r", roomW2)] roomW2 "r" "s1" "h"
    (by decide) (by decide)

/-! ## Claim C6: DELETE /api/rooms/:roomId -/

/-- Claim C6: the delete-room endpoint answers 400 when roomId or userId is
missing (falsy), 404 when no room with that id exists, 403 when the
requester is not the room's hostUserId — in all three cases leaving the
registry untouched and closing nothing — and otherwise closes every
transport, producer and consumer handle contained in the room, emits
roomDeleted to the room, removes the room from the registry (a subsequent
lookup fails) and responds with success. -/
theorem deleteRoom_endpoint_behavior (rooms : JsMap Room)
    (roomId userId : Option String) :
    (¬ (jsTruthy roomId = true ∧ jsTruthy userId = true) →
      deleteRoomApi rooms roomId userId
        = (rooms,
           { status := 400, success := false,
             message := "Room ID and User ID are required" },
           { closedIds := [], roomDeleted := [] })) ∧
    (jsTruthy roomId = true → jsTruthy userId = true →
      jsGet rooms (jsOrStr roomId "") = none →
      deleteRoomApi rooms roomId userId
        = (rooms,
           { status := 404, success := false, message := "Room not found" },
           { closedIds := [], roomDeleted := [] })) ∧
    (∀ room, jsTruthy roomId = true → jsTruthy userId = true →
      jsGet rooms (jsOrStr roomId "") = some room →
      room.hostUserId ≠ jsOrStr userId "" →
      deleteRoomApi rooms roomId userId
        = (rooms,
           { status := 403, success := false,
             message := "Only the host can delete the room" },
           { closedIds := [], roomDeleted := [] })) ∧
    (∀ room, jsTruthy roomId = true → jsTruthy userId = true →
      jsGet rooms (jsOrStr roomId "") = some room →
      room.hostUserId = jsOrStr userId "" →
      deleteRoomApi rooms roomId userId
        = (jsDelete rooms (jsOrStr roomId ""),
           { status := 200, success := true,
             message := "Room deleted successfully" },
           { closedIds := room.producerTransports.map (fun e => e.2.id)
               ++ room.consumerTransports.map (fun e => e.2.id)
               ++ room.producers.map (fun e => e.2.id)
               ++ room.consumers.map (fun e => e.2.id),
             roomDeleted := [jsOrStr roomId ""] })) ∧
    (∀ room, NodupKeys rooms → jsTruthy roomId = true →
      jsTruthy userId = true →
      jsGet rooms (jsOrStr roomId "") = some room →
      room.hostUserId = jsOrStr userId "" →
      jsGet (deleteRoomApi rooms roomId userId).1 (jsOrStr roomId "")
        = none) := by
  refine ⟨?_, ?_, ?_, ?_, ?_⟩
  · intro hng
    have hg : (jsTruthy roomId && jsTruthy userId) = false := by
      cases hri : jsTruthy roomId <;> cases hui : jsTruthy userId <;>
        simp_all
    simp [deleteRoomApi, hg]
  · intro hri hui hnone
    simp [deleteRoomApi, hri, hui, hnone]
  · intro room hri hui hsome hne
    simp [deleteRoomApi, hri, hui, hsome, hne]
  · intro room hri hui hsome heq
    simp [deleteRoomApi, hri, hui, hsome, heq]
  · intro room hnd hri hui hsome heq
    simp [deleteRoomApi, hri, hui, hsome, heq, jsGet_delete_self _ _ hnd]

/-- Claim C6 witness: all four outcomes on concrete requests against a
registry holding one room (host "h") full of handles. -/
theorem deleteRoom_endpoint_behavior_witness :
    (deleteRoomApi [("r", roomC4w)] none (some "h")).2.1.status = 400 ∧
    (deleteRoomApi [("r", roomC4w)] (some "x") (some "h")).2.1.status = 404 ∧
    (deleteRoomApi [("r", roomC4w)] (some "r") (some "z")).2.1.status = 403 ∧
    (deleteRoomApi [("r", roomC4w)] (some "r") (some "h")).2.1.status = 200 ∧
    (deleteRoomApi [("r", roomC4w)] (some "r") (some "h")).2.2.closedIds
      = ["t1", "t2", "pv", "pw", "cw"] ∧
    (deleteRoomApi [("r", roomC4w)] (some "r") (some "h")).2.2.roomDeleted
      = ["r"] ∧
    jsGet (deleteRoomApi [("r", roomC4w)] (some "r") (some "h")).1 "r"
      = none := by
  have h400 := (deleteRoom_endpoint_behavior [("r", roomC4w)]
    none (some "h")).1 (by decide)
  have h404 := (deleteRoom_endpoint_behavior [("r", roomC4w)]
    (some "x") (some "h")).2.1 (by decide) (by decide) (by decide)
  have h403 := (deleteRoom_endpoint_behavior [("r", roomC4w)]
    (some "r") (some "z")).2.2.1 roomC4w (by decide) (by decide)
    (by decide) (by decide)
  have h200 := (deleteRoom_endpoint_behavior [("r", roomC4w)]
    (some "r") (some "h")).2.2.2.1 roomC4w (by decide) (by decide)
    (by decide) (by decide)
  have hgone := (deleteRoom_endpoint_behavior [("r", roomC4w)]
    (some "r") (some "h")).2.2.2.2 roomC4w (by decide) (by decide)
    (by decide) (by decide) (by decide)
  refine ⟨by rw [h400], by rw [h404], by rw [h403], by rw [h200], ?_, ?_, ?_⟩
  · rw [h200]
    decide
  · rw [h200]
    decide
  · have : jsOrStr (some "r") "" = "r" := by decide
    rw [← this]
    exact hgone

end MediaSoup
